import Mathlib

/-!
Verification of the HydroCred core: a shallow embedding of the
`HydroCredToken` Solidity contract (src/blockchain/contracts/HydroCredToken.sol)
together with the relevant parts of the backend `BlockchainService`
(backend service file, `verifyCertificationSignature` and
`mintWithCertification`).

Modelling conventions:
- `Address` is a natural number; `0` is the zero address.  EVM transaction
  senders are never the zero address, so the step relation below carries a
  `sender ≠ 0` hypothesis.
- `bytes32` values that are only compared for equality (certification hashes)
  are modelled as natural numbers; byte strings (signatures, ABI encodings)
  as `List Nat` of byte values.
- Every state-changing entry point is a function `... → Except Err CState`:
  `Except.error` models an EVM revert, which rolls back every intermediate
  write, so a failed call leaves the state unchanged by construction.
- ECDSA recovery is kept abstract: operations that verify a signature take a
  `recover` oracle of type `Address → Nat → Hash → Sig → Option Address`.
  `none` models OpenZeppelin `ECDSA.recover` reverting with one of its
  `ECDSAInvalidSignature*` custom errors on a malformed signature
  (mapped to `Err.EcdsaFault`); `some c` models successful recovery of the
  (necessarily nonzero) address `c`.
- OpenZeppelin inherited behaviour (ERC721 transfer/approval plumbing,
  AccessControl, Pausable) is translated from the v5 library sources that the
  contract imports.  The ERC721 receiver hook of `_safeMint`/`safeTransferFrom`
  is omitted (all accounts are externally owned in this model), as are the
  ERC721 `Transfer`/`Approval` events, which no claim mentions.
-/

namespace HydroCred

/-- Account identifier; 0 is the zero address. -/
abbrev Address := Nat

/-- A bytes32 value used only for equality tests (certification hashes). -/
abbrev Hash := Nat

/-- A byte string (an ECDSA signature blob). -/
abbrev Sig := List Nat

/-- The AccessControl role identifiers of HydroCredToken.sol lines 19-25 plus
OpenZeppelin DEFAULT_ADMIN_ROLE.  They are keccak hashes of distinct strings
(and 0x00), hence pairwise distinct, which the inductive type captures. -/
inductive Role where
  | DEFAULT_ADMIN
  | MAIN_ADMIN
  | COUNTRY_ADMIN
  | STATE_ADMIN
  | CITY_ADMIN
  | PRODUCER
  | BUYER
  | AUDITOR
deriving DecidableEq, Repr

/-- Abstract failure conditions.  The first block follows the spec's error
taxonomy and corresponds one-to-one to the contract's own `require` messages;
the second block models reverts raised inside the imported OpenZeppelin
libraries (ERC721 v5, Pausable, AccessControl, ECDSA). -/
inductive Err where
  | ZeroIdentity
  | AlreadyHeld
  | InsufficientCapability
  | InvalidAmount
  | UnknownRecipient
  | HashReused
  | InvalidCertifierSignature
  | RetiredCreditTransfer
  | AlreadyRetired
  | NotOwner
  | Paused
  | NotPaused
  | EcdsaFault
  | InvalidReceiver
  | NonexistentToken
  | InsufficientApproval
  | IncorrectOwner
  | InvalidApprover
  | InvalidOperator
  | AlreadyMinted
  | BadConfirmation
deriving DecidableEq, Repr

/-- The CertificationData struct of HydroCredToken.sol lines 50-56. -/
structure CertificationData where
  producer : Address
  certifier : Address
  timestamp : Nat
  metadata : String
  certificationHash : Hash
deriving DecidableEq, Repr

/-- Observations emitted by the contract (HydroCredToken.sol lines 59-67). -/
inductive Event where
  | CreditsIssued (toAddr : Address) (amount fromId toId : Nat) (certificationHash : Hash)
  | CreditRetired (owner : Address) (tokenId timestamp : Nat)
  | CountryAdminAppointed (admin : Address) (countryId : Nat) (appointedBy : Address)
  | StateAdminAppointed (admin : Address) (stateId : Nat) (appointedBy : Address)
  | CityAdminAppointed (admin : Address) (cityId : Nat) (appointedBy : Address)
  | ProducerRegistered (producer registeredBy : Address)
  | BuyerRegistered (buyer : Address)
  | AuditorRegistered (auditor registeredBy : Address)
deriving DecidableEq, Repr

/-- Pointwise map update (Solidity mapping write). -/
def upd {α β : Type} [DecidableEq α] (m : α → β) (k : α) (v : β) : α → β :=
  fun x => if x = k then v else m x

/-- The zero value of a CertificationData mapping slot. -/
def emptyCert : CertificationData := ⟨0, 0, 0, "", 0⟩

/-- The full storage of the deployed contract: the contract's own mappings
(HydroCredToken.sol lines 27-48) plus the inherited ERC721 ownership and
approval maps, the Pausable flag, the ERC721Enumerable total supply, and the
log of emitted events. -/
structure CState where
  paused : Bool
  nextTokenId : Nat
  roleMember : Role → Address → Bool
  isCountryAdmin : Address → Bool
  countryAdminCountryId : Address → Nat
  isStateAdmin : Address → Bool
  stateAdminStateId : Address → Nat
  isCityAdmin : Address → Bool
  cityAdminCityId : Address → Nat
  isProducer : Address → Bool
  isBuyer : Address → Bool
  isAuditor : Address → Bool
  certificationHashUsed : Hash → Bool
  tokenCertifications : Nat → CertificationData
  isRetired : Nat → Bool
  retiredBy : Nat → Address
  retiredAt : Nat → Nat
  owners : Nat → Address
  tokenApprovals : Nat → Address
  operatorApprovals : Address → Address → Bool
  totalSupply : Nat
  events : List Event

/-- AccessControl hasRole query. -/
def hasRole (s : CState) (r : Role) (a : Address) : Bool :=
  s.roleMember r a

/-- AccessControl internal grant (no authorization check, idempotent). -/
def grantRoleMap (m : Role → Address → Bool) (r : Role) (a : Address) :
    Role → Address → Bool :=
  fun r' a' => if r' = r ∧ a' = a then true else m r' a'

/-- AccessControl internal revoke. -/
def revokeRoleMap (m : Role → Address → Bool) (r : Role) (a : Address) :
    Role → Address → Bool :=
  fun r' a' => if r' = r ∧ a' = a then false else m r' a'

/-- Constructor (HydroCredToken.sol lines 69-74): requires a nonzero main
admin and grants it DEFAULT_ADMIN_ROLE and MAIN_ADMIN_ROLE over otherwise
empty storage; `_nextTokenId` starts at 1. -/
def initState (mainAdmin : Address) : CState where
  paused := false
  nextTokenId := 1
  roleMember := grantRoleMap
    (grantRoleMap (fun _ _ => false) Role.DEFAULT_ADMIN mainAdmin)
    Role.MAIN_ADMIN mainAdmin
  isCountryAdmin := fun _ => false
  countryAdminCountryId := fun _ => 0
  isStateAdmin := fun _ => false
  stateAdminStateId := fun _ => 0
  isCityAdmin := fun _ => false
  cityAdminCityId := fun _ => 0
  isProducer := fun _ => false
  isBuyer := fun _ => false
  isAuditor := fun _ => false
  certificationHashUsed := fun _ => false
  tokenCertifications := fun _ => emptyCert
  isRetired := fun _ => false
  retiredBy := fun _ => 0
  retiredAt := fun _ => 0
  owners := fun _ => 0
  tokenApprovals := fun _ => 0
  operatorApprovals := fun _ _ => false
  totalSupply := 0
  events := []

/-- The minting loop of mintWithCertification (HydroCredToken.sol lines
107-120): `n` iterations, each `_safeMint`ing `s.nextTokenId` to `to`
(ERC721 `_mint` reverts if the id is already owned), storing the shared
certification record and advancing `_nextTokenId`; ERC721Enumerable
increments totalSupply once per mint. -/
def mintLoop (toAddr certifier : Address) (certHash : Hash) (ts : Nat) :
    Nat → CState → Except Err CState
  | 0, s => .ok s
  | n + 1, s =>
    if s.owners s.nextTokenId ≠ 0 then .error .AlreadyMinted
    else
      mintLoop toAddr certifier certHash ts n
        { s with
          owners := upd s.owners s.nextTokenId toAddr
          tokenCertifications := upd s.tokenCertifications s.nextTokenId
            ⟨toAddr, certifier, ts, "", certHash⟩
          totalSupply := s.totalSupply + 1
          nextTokenId := s.nextTokenId + 1 }

/-- mintWithCertification (HydroCredToken.sol lines 83-123).  The checks
appear in source order: the whenNotPaused modifier, the four `require`s,
signature recovery (the `recover` oracle; `none` = OpenZeppelin ECDSA revert),
the city-admin check on the recovered certifier, then hash consumption,
the minting loop and the CreditsIssued event. -/
def mintWithCertification (recover : Address → Nat → Hash → Sig → Option Address)
    (s : CState) (sender toAddr : Address) (amount : Nat) (certHash : Hash)
    (sig : Sig) (ts : Nat) : Except Err CState :=
  if s.paused then .error .Paused
  else if toAddr = 0 then .error .ZeroIdentity
  else if ¬ (0 < amount ∧ amount ≤ 1000) then .error .InvalidAmount
  else if ¬ s.isProducer toAddr then .error .UnknownRecipient
  else if s.certificationHashUsed certHash then .error .HashReused
  else
    match recover toAddr amount certHash sig with
    | none => .error .EcdsaFault
    | some certifier =>
      if ¬ hasRole s Role.CITY_ADMIN certifier then .error .InvalidCertifierSignature
      else
        let s1 := { s with certificationHashUsed := upd s.certificationHashUsed certHash true }
        match mintLoop toAddr certifier certHash ts amount s1 with
        | .error e => .error e
        | .ok s2 =>
          .ok { s2 with events :=
            Event.CreditsIssued toAddr amount s.nextTokenId (s.nextTokenId + amount - 1) certHash
              :: s2.events }

/-- appointCountryAdmin (HydroCredToken.sol lines 128-140): onlyRole
MAIN_ADMIN_ROLE, then the zero-address and duplicate checks. -/
def appointCountryAdmin (s : CState) (sender admin : Address) (countryId : Nat) :
    Except Err CState :=
  if ¬ hasRole s Role.MAIN_ADMIN sender then .error .InsufficientCapability
  else if admin = 0 then .error .ZeroIdentity
  else if s.isCountryAdmin admin then .error .AlreadyHeld
  else .ok { s with
    isCountryAdmin := upd s.isCountryAdmin admin true
    countryAdminCountryId := upd s.countryAdminCountryId admin countryId
    roleMember := grantRoleMap s.roleMember Role.COUNTRY_ADMIN admin
    events := Event.CountryAdminAppointed admin countryId sender :: s.events }

/-- appointStateAdmin (HydroCredToken.sol lines 145-157): onlyRole
COUNTRY_ADMIN_ROLE. -/
def appointStateAdmin (s : CState) (sender admin : Address) (stateId : Nat) :
    Except Err CState :=
  if ¬ hasRole s Role.COUNTRY_ADMIN sender then .error .InsufficientCapability
  else if admin = 0 then .error .ZeroIdentity
  else if s.isStateAdmin admin then .error .AlreadyHeld
  else .ok { s with
    isStateAdmin := upd s.isStateAdmin admin true
    stateAdminStateId := upd s.stateAdminStateId admin stateId
    roleMember := grantRoleMap s.roleMember Role.STATE_ADMIN admin
    events := Event.StateAdminAppointed admin stateId sender :: s.events }

/-- appointCityAdmin (HydroCredToken.sol lines 162-174): onlyRole
STATE_ADMIN_ROLE. -/
def appointCityAdmin (s : CState) (sender admin : Address) (cityId : Nat) :
    Except Err CState :=
  if ¬ hasRole s Role.STATE_ADMIN sender then .error .InsufficientCapability
  else if admin = 0 then .error .ZeroIdentity
  else if s.isCityAdmin admin then .error .AlreadyHeld
  else .ok { s with
    isCityAdmin := upd s.isCityAdmin admin true
    cityAdminCityId := upd s.cityAdminCityId admin cityId
    roleMember := grantRoleMap s.roleMember Role.CITY_ADMIN admin
    events := Event.CityAdminAppointed admin cityId sender :: s.events }

/-- registerProducer (HydroCredToken.sol lines 179-190): onlyRole
CITY_ADMIN_ROLE. -/
def registerProducer (s : CState) (sender producer : Address) : Except Err CState :=
  if ¬ hasRole s Role.CITY_ADMIN sender then .error .InsufficientCapability
  else if producer = 0 then .error .ZeroIdentity
  else if s.isProducer producer then .error .AlreadyHeld
  else .ok { s with
    isProducer := upd s.isProducer producer true
    roleMember := grantRoleMap s.roleMember Role.PRODUCER producer
    events := Event.ProducerRegistered producer sender :: s.events }

/-- registerBuyer (HydroCredToken.sol lines 195-202): self-registration,
no role requirement and no pause guard. -/
def registerBuyer (s : CState) (sender : Address) : Except Err CState :=
  if s.isBuyer sender then .error .AlreadyHeld
  else .ok { s with
    isBuyer := upd s.isBuyer sender true
    roleMember := grantRoleMap s.roleMember Role.BUYER sender
    events := Event.BuyerRegistered sender :: s.events }

/-- registerAuditor (HydroCredToken.sol lines 207-218): onlyRole
MAIN_ADMIN_ROLE. -/
def registerAuditor (s : CState) (sender auditor : Address) : Except Err CState :=
  if ¬ hasRole s Role.MAIN_ADMIN sender then .error .InsufficientCapability
  else if auditor = 0 then .error .ZeroIdentity
  else if s.isAuditor auditor then .error .AlreadyHeld
  else .ok { s with
    isAuditor := upd s.isAuditor auditor true
    roleMember := grantRoleMap s.roleMember Role.AUDITOR auditor
    events := Event.AuditorRegistered auditor sender :: s.events }

/-- retire (HydroCredToken.sol lines 223-232): owner-only, not pause-guarded
(the function carries no whenNotPaused modifier and does not go through
`_update`); stamps the set-once retirement bookkeeping. -/
def retire (s : CState) (sender : Address) (tokenId ts : Nat) : Except Err CState :=
  if s.owners tokenId ≠ sender then .error .NotOwner
  else if s.isRetired tokenId then .error .AlreadyRetired
  else .ok { s with
    isRetired := upd s.isRetired tokenId true
    retiredBy := upd s.retiredBy tokenId sender
    retiredAt := upd s.retiredAt tokenId ts
    events := Event.CreditRetired sender tokenId ts :: s.events }

/-- ERC721 transferFrom composed with the contract's `_update` override
(HydroCredToken.sol lines 237-248 over OpenZeppelin ERC721 v5): the
zero-receiver check, then the override's whenNotPaused modifier and
retired-credit check, then the inherited authorization check, ownership
write, approval clearing and the final owner-mismatch check.  In the
(unreachable for sender ≠ 0) case of a transfer from the zero address the
inherited `_update` acts as a mint and bumps totalSupply. -/
def transferFrom (s : CState) (sender fromAddr toAddr : Address) (tokenId : Nat) :
    Except Err CState :=
  if toAddr = 0 then .error .InvalidReceiver
  else if s.paused then .error .Paused
  else
    let own := s.owners tokenId
    if own ≠ 0 ∧ s.isRetired tokenId then .error .RetiredCreditTransfer
    else if ¬ (sender ≠ 0 ∧ (own = sender ∨ s.operatorApprovals own sender ∨
        s.tokenApprovals tokenId = sender)) then
      if own = 0 then .error .NonexistentToken else .error .InsufficientApproval
    else if own ≠ fromAddr then .error .IncorrectOwner
    else .ok { s with
      owners := upd s.owners tokenId toAddr
      tokenApprovals := if own ≠ 0 then upd s.tokenApprovals tokenId 0 else s.tokenApprovals
      totalSupply := if own = 0 then s.totalSupply + 1 else s.totalSupply }

/-- ERC721 approve (OpenZeppelin v5 `_approve` with auth = sender):
requires the token to be owned and the sender to be the owner or an
approved operator; not pause-guarded. -/
def approve (s : CState) (sender toAddr : Address) (tokenId : Nat) : Except Err CState :=
  let owner := s.owners tokenId
  if owner = 0 then .error .NonexistentToken
  else if sender ≠ 0 ∧ owner ≠ sender ∧ ¬ s.operatorApprovals owner sender then
    .error .InvalidApprover
  else .ok { s with tokenApprovals := upd s.tokenApprovals tokenId toAddr }

/-- ERC721 setApprovalForAll (OpenZeppelin v5). -/
def setApprovalForAll (s : CState) (sender operator : Address) (approved : Bool) :
    Except Err CState :=
  if operator = 0 then .error .InvalidOperator
  else .ok { s with
    operatorApprovals := fun a b =>
      if a = sender ∧ b = operator then approved else s.operatorApprovals a b }

/-- pause (HydroCredToken.sol lines 279-281): onlyRole MAIN_ADMIN_ROLE, then
Pausable `_pause` (reverts when already paused). -/
def pause (s : CState) (sender : Address) : Except Err CState :=
  if ¬ hasRole s Role.MAIN_ADMIN sender then .error .InsufficientCapability
  else if s.paused then .error .Paused
  else .ok { s with paused := true }

/-- unpause (HydroCredToken.sol lines 286-288): onlyRole MAIN_ADMIN_ROLE,
then Pausable `_unpause` (reverts when not paused). -/
def unpause (s : CState) (sender : Address) : Except Err CState :=
  if ¬ hasRole s Role.MAIN_ADMIN sender then .error .InsufficientCapability
  else if ¬ s.paused then .error .NotPaused
  else .ok { s with paused := false }

/-- Inherited AccessControl grantRole: restricted to the role's admin role,
which is DEFAULT_ADMIN_ROLE for every role here; a no-op if already held. -/
def grantRole (s : CState) (sender : Address) (r : Role) (a : Address) :
    Except Err CState :=
  if ¬ hasRole s Role.DEFAULT_ADMIN sender then .error .InsufficientCapability
  else .ok { s with roleMember := grantRoleMap s.roleMember r a }

/-- Inherited AccessControl revokeRole. -/
def revokeRole (s : CState) (sender : Address) (r : Role) (a : Address) :
    Except Err CState :=
  if ¬ hasRole s Role.DEFAULT_ADMIN sender then .error .InsufficientCapability
  else .ok { s with roleMember := revokeRoleMap s.roleMember r a }

/-- Inherited AccessControl renounceRole: the confirmation argument must be
the caller. -/
def renounceRole (s : CState) (sender : Address) (r : Role) (confirmation : Address) :
    Except Err CState :=
  if confirmation ≠ sender then .error .BadConfirmation
  else .ok { s with roleMember := revokeRoleMap s.roleMember r sender }

/-- The backend BlockchainService.verifyCertificationSignature.  Its whole
body sits inside a try/catch whose catch branch returns
`{ isValid: false, certifier: ZeroAddress }`, so any throw (malformed
signature included) yields `(false, 0)`; on successful recovery it returns
the recovered certifier together with the on-chain CITY_ADMIN_ROLE check.
The `recover` oracle abstracts the ethers recovery pipeline over the
backend's own message encoding. -/
def verifyCertificationSignature
    (recover : Address → Nat → Hash → Sig → Option Address)
    (cityAdminQuery : Address → Bool) (producerAddress : Address)
    (amount : Nat) (certHash : Hash) (sig : Sig) : Bool × Address :=
  match recover producerAddress amount certHash sig with
  | none => (false, 0)
  | some certifier => (cityAdminQuery certifier, certifier)

/-- Big-endian byte serialization of a natural number into `w` bytes
(the value is taken modulo 2^(8*w), as the EVM does). -/
def natToBytesBE : Nat → Nat → List Nat
  | 0, _ => []
  | w + 1, n => natToBytesBE w (n / 256) ++ [n % 256]

/-- The byte string hashed by the contract (HydroCredToken.sol line 95):
`abi.encodePacked(to, amount, certificationHash)` — the 20-byte address
followed by the 32-byte amount and the 32-byte hash, 84 bytes in all. -/
def contractMessageBytes (toAddr : Address) (amount : Nat) (certHash : Hash) :
    List Nat :=
  natToBytesBE 20 toAddr ++ natToBytesBE 32 amount ++ natToBytesBE 32 certHash

/-- The byte string hashed by the backend verifier (BlockchainService,
`AbiCoder.defaultAbiCoder().encode(['address','uint256','bytes32'], ...)`):
standard ABI encoding pads every head to 32 bytes, so the address is
left-padded with 12 zero bytes, 96 bytes in all. -/
def backendMessageBytes (producerAddress : Address) (amount : Nat) (certHash : Hash) :
    List Nat :=
  natToBytesBE 32 producerAddress ++ natToBytesBE 32 amount ++ natToBytesBE 32 certHash

/-- Backend token-id prediction before a mint (BlockchainService
mintWithCertification: `fromTokenId = Number(currentSupply) + 1`). -/
def backendPredictedFromId (s : CState) : Nat :=
  s.totalSupply + 1

section StepRelation

/-- One successful state-changing call of the deployed contract, by any
nonzero sender with any arguments; `recover` ranges over arbitrary ECDSA
oracles.  Failed calls revert and do not change state, so they do not
appear as steps. -/
inductive Step : CState → CState → Prop where
  | mint {recover s sender toAddr amount certHash sig ts s'} :
      sender ≠ 0 →
      mintWithCertification recover s sender toAddr amount certHash sig ts = .ok s' →
      Step s s'
  | transfer {s sender fromAddr toAddr tokenId s'} :
      sender ≠ 0 →
      transferFrom s sender fromAddr toAddr tokenId = .ok s' → Step s s'
  | approval {s sender toAddr tokenId s'} :
      sender ≠ 0 → approve s sender toAddr tokenId = .ok s' → Step s s'
  | approvalForAll {s sender operator approved s'} :
      sender ≠ 0 → setApprovalForAll s sender operator approved = .ok s' → Step s s'
  | retireStep {s sender tokenId ts s'} :
      sender ≠ 0 → retire s sender tokenId ts = .ok s' → Step s s'
  | country {s sender admin countryId s'} :
      sender ≠ 0 → appointCountryAdmin s sender admin countryId = .ok s' → Step s s'
  | state {s sender admin stateId s'} :
      sender ≠ 0 → appointStateAdmin s sender admin stateId = .ok s' → Step s s'
  | city {s sender admin cityId s'} :
      sender ≠ 0 → appointCityAdmin s sender admin cityId = .ok s' → Step s s'
  | producer {s sender producer s'} :
      sender ≠ 0 → registerProducer s sender producer = .ok s' → Step s s'
  | buyer {s sender s'} :
      sender ≠ 0 → registerBuyer s sender = .ok s' → Step s s'
  | auditor {s sender auditor s'} :
      sender ≠ 0 → registerAuditor s sender auditor = .ok s' → Step s s'
  | pauseStep {s sender s'} :
      sender ≠ 0 → pause s sender = .ok s' → Step s s'
  | unpauseStep {s sender s'} :
      sender ≠ 0 → unpause s sender = .ok s' → Step s s'
  | grant {s sender r a s'} :
      sender ≠ 0 → grantRole s sender r a = .ok s' → Step s s'
  | revoke {s sender r a s'} :
      sender ≠ 0 → revokeRole s sender r a = .ok s' → Step s s'
  | renounce {s sender r confirmation s'} :
      sender ≠ 0 → renounceRole s sender r confirmation = .ok s' → Step s s'

/-- Zero or more successful calls. -/
inductive Steps : CState → CState → Prop where
  | refl {s} : Steps s s
  | tail {s s' s''} : Steps s s' → Step s' s'' → Steps s s''

/-- States reachable from deployment (nonzero main admin) by successful
calls. -/
inductive Reachable : CState → Prop where
  | deploy {mainAdmin} : mainAdmin ≠ 0 → Reachable (initState mainAdmin)
  | step {s s'} : Reachable s → Step s s' → Reachable s'

end StepRelation

/-- State invariant maintained by every entry point: token ids at or above
`_nextTokenId` are unminted (unowned, unretired, unapproved), retired tokens
are owned, `_nextTokenId` runs exactly one ahead of totalSupply, the zero
address holds no operator approvals and unminted tokens carry no approvals. -/
def Inv (s : CState) : Prop :=
  1 ≤ s.nextTokenId ∧
  s.nextTokenId = s.totalSupply + 1 ∧
  (∀ t, s.nextTokenId ≤ t → s.owners t = 0) ∧
  (∀ t, s.nextTokenId ≤ t → s.isRetired t = false) ∧
  (∀ t, s.isRetired t = true → s.owners t ≠ 0) ∧
  (∀ x, s.operatorApprovals 0 x = false) ∧
  (∀ t, s.owners t = 0 → s.tokenApprovals t = 0)

/-- Extracts the state of a successful call; a deliberately absurd default
keeps the concrete scenario definitions total. -/
def exS (e : Except Err CState) : CState :=
  match e with
  | .ok s => s
  | .error _ => initState 0

/-- An ECDSA oracle under which every signature recovers to address 4. -/
def recOk : Address → Nat → Hash → Sig → Option Address :=
  fun _ _ _ _ => some 4

/-- An ECDSA oracle under which every signature recovers to address 8. -/
def recTo8 : Address → Nat → Hash → Sig → Option Address :=
  fun _ _ _ _ => some 8

/-- An ECDSA oracle with OpenZeppelin's length gate: a signature that is not
65 bytes long makes `ECDSA.recover` revert (`none`); 65-byte blobs recover
to address 4. -/
def recLen : Address → Nat → Hash → Sig → Option Address :=
  fun _ _ _ sig => if sig.length = 65 then some 4 else none

/-- Deployment state with main admin 1 (concrete scenario). -/
def chain0 : CState := initState 1

/-- Main admin 1 appoints 2 as country admin of country 10. -/
def chain1 : CState := exS (appointCountryAdmin chain0 1 2 10)

/-- Country admin 2 appoints 3 as state admin of state 20. -/
def chain2 : CState := exS (appointStateAdmin chain1 2 3 20)

/-- State admin 3 appoints 4 as city admin of city 30. -/
def chain3 : CState := exS (appointCityAdmin chain2 3 4 30)

/-- City admin 4 registers 5 as producer. -/
def chain4 : CState := exS (registerProducer chain3 4 5)

/-- Backend sender 9 mints 2 credits for producer 5 under certification
hash 7, the signature recovering to city admin 4: tokens 1 and 2. -/
def chain5 : CState := exS (mintWithCertification recOk chain4 9 5 2 7 [] 0)

/-- Producer 5 retires token 1 at time 99. -/
def chain6 : CState := exS (retire chain5 5 1 99)

/-- Main admin 1 pauses after the retirement. -/
def chain7 : CState := exS (pause chain6 1)

/-- Main admin 1 pauses right after the mint (token 1 not retired). -/
def chain5p : CState := exS (pause chain5 1)

/-- Equality of every token-related storage field, used to transport the
state invariant across operations that only touch role bookkeeping. -/
def TokenFieldsEq (s s' : CState) : Prop :=
  s'.nextTokenId = s.nextTokenId ∧ s'.totalSupply = s.totalSupply ∧
  s'.owners = s.owners ∧ s'.isRetired = s.isRetired ∧
  s'.retiredBy = s.retiredBy ∧ s'.retiredAt = s.retiredAt ∧
  s'.tokenApprovals = s.tokenApprovals ∧ s'.operatorApprovals = s.operatorApprovals

theorem inv_of_tokenFieldsEq {s s' : CState} (h : TokenFieldsEq s s') (hs : Inv s) :
    Inv s' := by
  obtain ⟨h1, h2, h3, h4, h5, h6, h7, h8⟩ := h
  obtain ⟨i1, i2, i3, i4, i5, i6, i7⟩ := hs
  exact ⟨h1 ▸ i1, h1 ▸ h2 ▸ i2, h1 ▸ h3 ▸ i3, h1 ▸ h4 ▸ i4,
    fun t ht => h3 ▸ i5 t (h4 ▸ ht), fun x => h8 ▸ i6 x,
    fun t ht => h7 ▸ i7 t (h3 ▸ ht)⟩

theorem appointCountryAdmin_tokenFields {s : CState} {sender admin : Address}
    {cid : Nat} {s' : CState} (h : appointCountryAdmin s sender admin cid = .ok s') :
    TokenFieldsEq s s' := by
  unfold appointCountryAdmin at h
  split_ifs at h
  all_goals first
    | exact Except.noConfusion h
    | (injection h with h; subst h; exact ⟨rfl, rfl, rfl, rfl, rfl, rfl, rfl, rfl⟩)

theorem appointStateAdmin_tokenFields {s : CState} {sender admin : Address}
    {sid : Nat} {s' : CState} (h : appointStateAdmin s sender admin sid = .ok s') :
    TokenFieldsEq s s' := by
  unfold appointStateAdmin at h
  split_ifs at h
  all_goals first
    | exact Except.noConfusion h
    | (injection h with h; subst h; exact ⟨rfl, rfl, rfl, rfl, rfl, rfl, rfl, rfl⟩)

theorem appointCityAdmin_tokenFields {s : CState} {sender admin : Address}
    {cid : Nat} {s' : CState} (h : appointCityAdmin s sender admin cid = .ok s') :
    TokenFieldsEq s s' := by
  unfold appointCityAdmin at h
  split_ifs at h
  all_goals first
    | exact Except.noConfusion h
    | (injection h with h; subst h; exact ⟨rfl, rfl, rfl, rfl, rfl, rfl, rfl, rfl⟩)

theorem registerProducer_tokenFields {s : CState} {sender producer : Address}
    {s' : CState} (h : registerProducer s sender producer = .ok s') :
    TokenFieldsEq s s' := by
  unfold registerProducer at h
  split_ifs at h
  all_goals first
    | exact Except.noConfusion h
    | (injection h with h; subst h; exact ⟨rfl, rfl, rfl, rfl, rfl, rfl, rfl, rfl⟩)

theorem registerBuyer_tokenFields {s : CState} {sender : Address} {s' : CState}
    (h : registerBuyer s sender = .ok s') : TokenFieldsEq s s' := by
  unfold registerBuyer at h
  split_ifs at h
  all_goals first
    | exact Except.noConfusion h
    | (injection h with h; subst h; exact ⟨rfl, rfl, rfl, rfl, rfl, rfl, rfl, rfl⟩)

theorem registerAuditor_tokenFields {s : CState} {sender auditor : Address}
    {s' : CState} (h : registerAuditor s sender auditor = .ok s') :
    TokenFieldsEq s s' := by
  unfold registerAuditor at h
  split_ifs at h
  all_goals first
    | exact Except.noConfusion h
    | (injection h with h; subst h; exact ⟨rfl, rfl, rfl, rfl, rfl, rfl, rfl, rfl⟩)

theorem pause_tokenFields {s : CState} {sender : Address} {s' : CState}
    (h : pause s sender = .ok s') : TokenFieldsEq s s' := by
  unfold pause at h
  split_ifs at h
  all_goals first
    | exact Except.noConfusion h
    | (injection h with h; subst h; exact ⟨rfl, rfl, rfl, rfl, rfl, rfl, rfl, rfl⟩)

theorem unpause_tokenFields {s : CState} {sender : Address} {s' : CState}
    (h : unpause s sender = .ok s') : TokenFieldsEq s s' := by
  unfold unpause at h
  split_ifs at h
  all_goals first
    | exact Except.noConfusion h
    | (injection h with h; subst h; exact ⟨rfl, rfl, rfl, rfl, rfl, rfl, rfl, rfl⟩)

theorem grantRole_tokenFields {s : CState} {sender : Address} {r : Role}
    {a : Address} {s' : CState} (h : grantRole s sender r a = .ok s') :
    TokenFieldsEq s s' := by
  unfold grantRole at h
  split_ifs at h
  all_goals first
    | exact Except.noConfusion h
    | (injection h with h; subst h; exact ⟨rfl, rfl, rfl, rfl, rfl, rfl, rfl, rfl⟩)

theorem revokeRole_tokenFields {s : CState} {sender : Address} {r : Role}
    {a : Address} {s' : CState} (h : revokeRole s sender r a = .ok s') :
    TokenFieldsEq s s' := by
  unfold revokeRole at h
  split_ifs at h
  all_goals first
    | exact Except.noConfusion h
    | (injection h with h; subst h; exact ⟨rfl, rfl, rfl, rfl, rfl, rfl, rfl, rfl⟩)

theorem renounceRole_tokenFields {s : CState} {sender : Address} {r : Role}
    {confirmation : Address} {s' : CState}
    (h : renounceRole s sender r confirmation = .ok s') : TokenFieldsEq s s' := by
  unfold renounceRole at h
  split_ifs at h
  all_goals first
    | exact Except.noConfusion h
    | (injection h with h; subst h; exact ⟨rfl, rfl, rfl, rfl, rfl, rfl, rfl, rfl⟩)

theorem mintLoop_ok_spec {toAddr certifier : Address} {certHash : Hash} {ts : Nat} :
    ∀ (n : Nat) (s s' : CState), mintLoop toAddr certifier certHash ts n s = .ok s' →
      s'.paused = s.paused ∧
      s'.roleMember = s.roleMember ∧
      s'.isProducer = s.isProducer ∧
      s'.certificationHashUsed = s.certificationHashUsed ∧
      s'.isRetired = s.isRetired ∧
      s'.retiredBy = s.retiredBy ∧
      s'.retiredAt = s.retiredAt ∧
      s'.tokenApprovals = s.tokenApprovals ∧
      s'.operatorApprovals = s.operatorApprovals ∧
      s'.events = s.events ∧
      s'.nextTokenId = s.nextTokenId + n ∧
      s'.totalSupply = s.totalSupply + n ∧
      (∀ t, s'.owners t =
        if s.nextTokenId ≤ t ∧ t < s.nextTokenId + n then toAddr else s.owners t) ∧
      (∀ t, s'.tokenCertifications t =
        if s.nextTokenId ≤ t ∧ t < s.nextTokenId + n then
          ⟨toAddr, certifier, ts, "", certHash⟩ else s.tokenCertifications t) := by
  intro n
  induction n with
  | zero =>
    intro s s' h
    simp only [mintLoop] at h
    injection h with h
    subst h
    refine ⟨rfl, rfl, rfl, rfl, rfl, rfl, rfl, rfl, rfl, rfl, rfl, rfl, ?_, ?_⟩
    · intro t; split_ifs with hc
      · omega
      · rfl
    · intro t; split_ifs with hc
      · omega
      · rfl
  | succ n ih =>
    intro s s' h
    simp only [mintLoop] at h
    split_ifs at h with h0
    obtain ⟨p, rm, ip, ch, ir, rb, ra, ta, oa, ev, nid, tsup, how, htc⟩ := ih _ _ h
    dsimp only at p rm ip ch ir rb ra ta oa ev nid tsup how htc
    refine ⟨p, rm, ip, ch, ir, rb, ra, ta, oa, ev, by omega, by omega, ?_, ?_⟩
    · intro t
      rw [how t]
      unfold upd
      split_ifs <;> first | rfl | omega
    · intro t
      rw [htc t]
      unfold upd
      split_ifs <;> first | rfl | omega

theorem mintLoop_progress {toAddr certifier : Address} {certHash : Hash} {ts : Nat} :
    ∀ (n : Nat) (s : CState), (∀ t, s.nextTokenId ≤ t → s.owners t = 0) →
      ∃ s', mintLoop toAddr certifier certHash ts n s = .ok s' := by
  intro n
  induction n with
  | zero => intro s _; exact ⟨s, rfl⟩
  | succ n ih =>
    intro s hfresh
    have h0 : s.owners s.nextTokenId = 0 := hfresh _ (Nat.le_refl _)
    simp only [mintLoop, h0, ne_eq, not_true_eq_false, if_false]
    exact ih _ (by
      intro t ht
      dsimp only at ht ⊢
      unfold upd
      rw [if_neg (by omega)]
      exact hfresh t (by omega))

theorem retire_ok_elim {s : CState} {sender : Address} {tokenId ts : Nat} {s' : CState}
    (h : retire s sender tokenId ts = .ok s') :
    s.owners tokenId = sender ∧ s.isRetired tokenId = false ∧
    s' = { s with
      isRetired := upd s.isRetired tokenId true
      retiredBy := upd s.retiredBy tokenId sender
      retiredAt := upd s.retiredAt tokenId ts
      events := Event.CreditRetired sender tokenId ts :: s.events } := by
  simp only [retire] at h
  split_ifs at h with h1 h2
  simp only [ne_eq, not_not] at h1
  simp only [Bool.not_eq_true] at h2
  injection h with h
  exact ⟨h1, h2, h.symm⟩

theorem transferFrom_ok_elim {s : CState} {sender fromAddr toAddr : Address}
    {tokenId : Nat} {s' : CState}
    (h : transferFrom s sender fromAddr toAddr tokenId = .ok s') :
    toAddr ≠ 0 ∧ s.paused = false ∧
    ¬ (s.owners tokenId ≠ 0 ∧ s.isRetired tokenId = true) ∧
    sender ≠ 0 ∧
    (s.owners tokenId = sender ∨ s.operatorApprovals (s.owners tokenId) sender = true ∨
      s.tokenApprovals tokenId = sender) ∧
    s.owners tokenId = fromAddr ∧
    s'.owners = upd s.owners tokenId toAddr ∧
    s'.isRetired = s.isRetired ∧ s'.retiredBy = s.retiredBy ∧
    s'.retiredAt = s.retiredAt ∧ s'.nextTokenId = s.nextTokenId ∧
    s'.operatorApprovals = s.operatorApprovals ∧
    (s.owners tokenId ≠ 0 →
      s'.totalSupply = s.totalSupply ∧ s'.tokenApprovals = upd s.tokenApprovals tokenId 0) ∧
    (s.owners tokenId = 0 →
      s'.totalSupply = s.totalSupply + 1 ∧ s'.tokenApprovals = s.tokenApprovals) := by
  simp only [transferFrom] at h
  split_ifs at h with h1 h2 h3 h4 h5 h6 h7
  · simp only [Bool.not_eq_true] at h2
    simp only [ne_eq, not_not] at h5
    injection h with h
    subst h
    exact ⟨h1, h2, h3, h4.1, h4.2, h5, rfl, rfl, rfl, rfl, rfl, rfl,
      fun _ => ⟨rfl, rfl⟩, fun hx => absurd hx h6⟩
  · simp only [Bool.not_eq_true] at h2
    simp only [ne_eq, not_not] at h5
    injection h with h
    subst h
    exact ⟨h1, h2, h3, h4.1, h4.2, h5, rfl, rfl, rfl, rfl, rfl, rfl,
      fun hx => absurd h7 hx, fun _ => ⟨rfl, rfl⟩⟩
  · exact absurd (not_not.mp h6) h7

theorem approve_ok_elim {s : CState} {sender toAddr : Address} {tokenId : Nat}
    {s' : CState} (h : approve s sender toAddr tokenId = .ok s') :
    s.owners tokenId ≠ 0 ∧
    s' = { s with tokenApprovals := upd s.tokenApprovals tokenId toAddr } := by
  simp only [approve] at h
  split_ifs at h with h1 h2
  all_goals injection h with h
  all_goals exact ⟨h1, h.symm⟩

theorem setApprovalForAll_ok_elim {s : CState} {sender operator : Address}
    {approved : Bool} {s' : CState}
    (h : setApprovalForAll s sender operator approved = .ok s') :
    operator ≠ 0 ∧
    s' = { s with operatorApprovals := fun a b =>
      if a = sender ∧ b = operator then approved else s.operatorApprovals a b } := by
  simp only [setApprovalForAll] at h
  split_ifs at h with h1
  injection h with h
  exact ⟨h1, h.symm⟩

theorem mint_ok_elim {recover : Address → Nat → Hash → Sig → Option Address}
    {s : CState} {sender toAddr : Address} {amount : Nat} {certHash : Hash}
    {sig : Sig} {ts : Nat} {s' : CState}
    (h : mintWithCertification recover s sender toAddr amount certHash sig ts = .ok s') :
    s.paused = false ∧ toAddr ≠ 0 ∧ 0 < amount ∧ amount ≤ 1000 ∧
    s.isProducer toAddr = true ∧ s.certificationHashUsed certHash = false ∧
    ∃ certifier s2,
      recover toAddr amount certHash sig = some certifier ∧
      hasRole s Role.CITY_ADMIN certifier = true ∧
      mintLoop toAddr certifier certHash ts amount
        { s with certificationHashUsed := upd s.certificationHashUsed certHash true }
        = .ok s2 ∧
      s' = { s2 with
        events := Event.CreditsIssued toAddr amount s.nextTokenId
          (s.nextTokenId + amount - 1) certHash :: s2.events } := by
  simp only [mintWithCertification] at h
  split_ifs at h with h1 h2 h3 h4 h5
  rcases hrec : recover toAddr amount certHash sig with _ | certifier
  all_goals rw [hrec] at h
  all_goals dsimp only at h
  · exact Except.noConfusion h
  · split_ifs at h with h6
    rcases hml : mintLoop toAddr certifier certHash ts amount
        { s with certificationHashUsed := upd s.certificationHashUsed certHash true }
      with e | s2
    all_goals rw [hml] at h
    all_goals dsimp only at h
    · exact Except.noConfusion h
    · injection h with h
      simp only [Bool.not_eq_true] at h1 h5
      exact ⟨h1, h2, h3.1, h3.2, h4, h5, certifier, s2, rfl, h6, hml, h.symm⟩

theorem inv_init (mainAdmin : Address) : Inv (initState mainAdmin) := by
  refine ⟨Nat.le_refl _, rfl, fun t _ => rfl, fun t _ => rfl, fun t ht => ?_,
    fun x => rfl, fun t _ => rfl⟩
  exact Bool.noConfusion ht

theorem mint_inv {recover : Address → Nat → Hash → Sig → Option Address}
    {s : CState} {sender toAddr : Address} {amount : Nat} {certHash : Hash}
    {sig : Sig} {ts : Nat} {s' : CState}
    (h : mintWithCertification recover s sender toAddr amount certHash sig ts = .ok s')
    (hs : Inv s) : Inv s' := by
  obtain ⟨hp, ht0, ham, _, hprod, hused, certifier, s2, hrec, hrole, hml, hs'⟩ :=
    mint_ok_elim h
  obtain ⟨i1, i2, i3, i4, i5, i6, i7⟩ := hs
  obtain ⟨p, rm, ip, ch, ir, rb, ra, ta, oa, ev, nid, tsup, how, htc⟩ :=
    mintLoop_ok_spec _ _ _ hml
  dsimp only at p rm ip ch ir rb ra ta oa ev nid tsup how htc
  subst hs'
  refine ⟨?_, ?_, fun t ht => ?_, fun t ht => ?_, fun t ht => ?_, fun x => ?_,
    fun t ht => ?_⟩
  · show 1 ≤ s2.nextTokenId
    omega
  · show s2.nextTokenId = s2.totalSupply + 1
    omega
  · replace ht : s2.nextTokenId ≤ t := ht
    rw [nid] at ht
    show s2.owners t = 0
    rw [how t, if_neg (by omega)]
    exact i3 t (by omega)
  · replace ht : s2.nextTokenId ≤ t := ht
    rw [nid] at ht
    show s2.isRetired t = false
    rw [ir]
    exact i4 t (by omega)
  · replace ht : s2.isRetired t = true := ht
    rw [ir] at ht
    show s2.owners t ≠ 0
    rw [how t]
    split_ifs with hc
    · exact ht0
    · exact i5 t ht
  · show s2.operatorApprovals 0 x = false
    rw [oa]
    exact i6 x
  · replace ht : s2.owners t = 0 := ht
    rw [how t] at ht
    show s2.tokenApprovals t = 0
    rw [ta]
    split_ifs at ht with hc
    · exact absurd ht ht0
    · exact i7 t ht

theorem transfer_inv {s : CState} {sender fromAddr toAddr : Address} {tokenId : Nat}
    {s' : CState} (hsender : sender ≠ 0)
    (h : transferFrom s sender fromAddr toAddr tokenId = .ok s') (hs : Inv s) :
    Inv s' := by
  obtain ⟨h1, h2, h3, hs0, hauth, hfrom, hOw, hIr, hRb, hRa, hNid, hOp, hPos, hZero⟩ :=
    transferFrom_ok_elim h
  obtain ⟨i1, i2, i3, i4, i5, i6, i7⟩ := hs
  have hown : s.owners tokenId ≠ 0 := by
    intro h0
    rcases hauth with ha | ha | ha
    · exact hs0 (ha.symm.trans h0)
    · rw [h0] at ha
      rw [i6 sender] at ha
      exact Bool.noConfusion ha
    · exact hs0 (ha.symm.trans (i7 tokenId h0))
  obtain ⟨hSup, hTa⟩ := hPos hown
  have htk : tokenId < s.nextTokenId := by
    by_contra hc
    push_neg at hc
    exact hown (i3 tokenId hc)
  refine ⟨?_, ?_, fun t ht => ?_, fun t ht => ?_, fun t ht => ?_, fun x => ?_,
    fun t ht => ?_⟩
  · rw [hNid]; exact i1
  · rw [hNid, hSup]; exact i2
  · rw [hNid] at ht
    rw [hOw]
    unfold upd
    rw [if_neg (by omega)]
    exact i3 t ht
  · rw [hNid] at ht
    rw [hIr]
    exact i4 t ht
  · rw [hIr] at ht
    rw [hOw]
    unfold upd
    split_ifs with he
    · exact h1
    · exact i5 t ht
  · rw [hOp]; exact i6 x
  · rw [hOw] at ht
    rw [hTa]
    unfold upd at ht ⊢
    split_ifs at ht ⊢ with he
    · exact absurd ht h1
    · exact i7 t ht

theorem retire_inv {s : CState} {sender : Address} {tokenId ts : Nat} {s' : CState}
    (hsender : sender ≠ 0) (h : retire s sender tokenId ts = .ok s') (hs : Inv s) :
    Inv s' := by
  obtain ⟨hOwn, hNr, hs'⟩ := retire_ok_elim h
  obtain ⟨i1, i2, i3, i4, i5, i6, i7⟩ := hs
  subst hs'
  have htk : tokenId < s.nextTokenId := by
    by_contra hc
    push_neg at hc
    rw [i3 tokenId hc] at hOwn
    exact hsender hOwn.symm
  refine ⟨i1, i2, fun t ht => i3 t ht, fun t ht => ?_, fun t ht => ?_, fun x => i6 x,
    fun t ht => i7 t ht⟩
  · replace ht : s.nextTokenId ≤ t := ht
    show upd s.isRetired tokenId true t = false
    unfold upd
    rw [if_neg (by omega)]
    exact i4 t ht
  · replace ht : upd s.isRetired tokenId true t = true := ht
    show s.owners t ≠ 0
    unfold upd at ht
    split_ifs at ht with he
    · rw [he, hOwn]
      exact hsender
    · exact i5 t ht

theorem approve_inv {s : CState} {sender toAddr : Address} {tokenId : Nat}
    {s' : CState} (h : approve s sender toAddr tokenId = .ok s') (hs : Inv s) :
    Inv s' := by
  obtain ⟨hOwn, hs'⟩ := approve_ok_elim h
  obtain ⟨i1, i2, i3, i4, i5, i6, i7⟩ := hs
  subst hs'
  refine ⟨i1, i2, fun t ht => i3 t ht, fun t ht => i4 t ht, fun t ht => i5 t ht,
    fun x => i6 x, fun t ht => ?_⟩
  replace ht : s.owners t = 0 := ht
  show upd s.tokenApprovals tokenId toAddr t = 0
  unfold upd
  split_ifs with he
  · rw [he] at ht
    exact absurd ht hOwn
  · exact i7 t ht

theorem setApprovalForAll_inv {s : CState} {sender operator : Address}
    {approved : Bool} {s' : CState} (hsender : sender ≠ 0)
    (h : setApprovalForAll s sender operator approved = .ok s') (hs : Inv s) :
    Inv s' := by
  obtain ⟨hOp0, hs'⟩ := setApprovalForAll_ok_elim h
  obtain ⟨i1, i2, i3, i4, i5, i6, i7⟩ := hs
  subst hs'
  refine ⟨i1, i2, fun t ht => i3 t ht, fun t ht => i4 t ht, fun t ht => i5 t ht,
    fun x => ?_, fun t ht => i7 t ht⟩
  show (if (0 : Address) = sender ∧ x = operator then approved
    else s.operatorApprovals 0 x) = false
  rw [if_neg (fun hc => hsender hc.1.symm)]
  exact i6 x

theorem step_inv {s s' : CState} (h : Step s s') (hs : Inv s) : Inv s' := by
  cases h with
  | mint hsender hok => exact mint_inv hok hs
  | transfer hsender hok => exact transfer_inv hsender hok hs
  | approval hsender hok => exact approve_inv hok hs
  | approvalForAll hsender hok => exact setApprovalForAll_inv hsender hok hs
  | retireStep hsender hok => exact retire_inv hsender hok hs
  | country hsender hok =>
    exact inv_of_tokenFieldsEq (appointCountryAdmin_tokenFields hok) hs
  | state hsender hok =>
    exact inv_of_tokenFieldsEq (appointStateAdmin_tokenFields hok) hs
  | city hsender hok =>
    exact inv_of_tokenFieldsEq (appointCityAdmin_tokenFields hok) hs
  | producer hsender hok =>
    exact inv_of_tokenFieldsEq (registerProducer_tokenFields hok) hs
  | buyer hsender hok =>
    exact inv_of_tokenFieldsEq (registerBuyer_tokenFields hok) hs
  | auditor hsender hok =>
    exact inv_of_tokenFieldsEq (registerAuditor_tokenFields hok) hs
  | pauseStep hsender hok =>
    exact inv_of_tokenFieldsEq (pause_tokenFields hok) hs
  | unpauseStep hsender hok =>
    exact inv_of_tokenFieldsEq (unpause_tokenFields hok) hs
  | grant hsender hok =>
    exact inv_of_tokenFieldsEq (grantRole_tokenFields hok) hs
  | revoke hsender hok =>
    exact inv_of_tokenFieldsEq (revokeRole_tokenFields hok) hs
  | renounce hsender hok =>
    exact inv_of_tokenFieldsEq (renounceRole_tokenFields hok) hs

theorem reachable_inv {s : CState} (h : Reachable s) : Inv s := by
  induction h with
  | deploy _ => exact inv_init _
  | step _ hst ih => exact step_inv hst ih

theorem steps_inv {s s' : CState} (h : Steps s s') (hs : Inv s) : Inv s' := by
  induction h with
  | refl => exact hs
  | tail _ hst ih => exact step_inv hst ih

/-- The owner of the transferred token is nonzero on every successful
transfer (otherwise no authorization source exists for a nonzero sender). -/
theorem transfer_owner_ne_zero {s : CState} {sender fromAddr toAddr : Address}
    {tokenId : Nat} {s' : CState}
    (h : transferFrom s sender fromAddr toAddr tokenId = .ok s') (hs : Inv s) :
    s.owners tokenId ≠ 0 := by
  obtain ⟨h1, h2, h3, hs0, hauth, hfrom, hOw, hIr, hRb, hRa, hNid, hOp, hPos, hZero⟩ :=
    transferFrom_ok_elim h
  obtain ⟨i1, i2, i3, i4, i5, i6, i7⟩ := hs
  intro h0
  rcases hauth with ha | ha | ha
  · exact hs0 (ha.symm.trans h0)
  · rw [h0] at ha
    rw [i6 sender] at ha
    exact Bool.noConfusion ha
  · exact hs0 (ha.symm.trans (i7 tokenId h0))

/-- One successful call never changes the retirement bookkeeping or the
ownership of an already-retired token. -/
theorem step_retired_pres {s s' : CState} {t : Nat} (h : Step s s') (hs : Inv s)
    (ht : s.isRetired t = true) :
    s'.isRetired t = true ∧ s'.owners t = s.owners t ∧
    s'.retiredBy t = s.retiredBy t ∧ s'.retiredAt t = s.retiredAt t := by
  obtain ⟨i1, i2, i3, i4, i5, i6, i7⟩ := hs
  have htlt : t < s.nextTokenId := by
    by_contra hc
    push_neg at hc
    exact i5 t ht (i3 t hc)
  cases h with
  | mint hsender hok =>
    obtain ⟨hp, ht0, ham, _, hprod, hused, certifier, s2, hrec, hrole, hml, hs'⟩ :=
      mint_ok_elim hok
    obtain ⟨p, rm, ip, ch, ir, rb, ra, ta, oa, ev, nid, tsup, how, htc⟩ :=
      mintLoop_ok_spec _ _ _ hml
    dsimp only at ir rb ra how
    subst hs'
    refine ⟨?_, ?_, ?_, ?_⟩
    · show s2.isRetired t = true
      rw [ir]; exact ht
    · show s2.owners t = s.owners t
      rw [how t, if_neg (by omega)]
    · show s2.retiredBy t = s.retiredBy t
      rw [rb]
    · show s2.retiredAt t = s.retiredAt t
      rw [ra]
  | @transfer _ sender fromAddr toAddr tokenId _ hsender hok =>
    have hown := transfer_owner_ne_zero hok ⟨i1, i2, i3, i4, i5, i6, i7⟩
    obtain ⟨h1, h2, h3, hs0, hauth, hfrom, hOw, hIr, hRb, hRa, hNid, hOp, hPos, hZero⟩ :=
      transferFrom_ok_elim hok
    have hnr : s.isRetired tokenId = false := by
      cases hb : s.isRetired tokenId with
      | false => rfl
      | true => exact absurd ⟨hown, hb⟩ h3
    have htne : t ≠ tokenId := by
      intro he
      rw [he, hnr] at ht
      exact Bool.noConfusion ht
    refine ⟨hIr ▸ ht, ?_, congrFun hRb t, congrFun hRa t⟩
    rw [hOw]
    unfold upd
    rw [if_neg htne]
  | approval hsender hok =>
    obtain ⟨hOwn, hs'⟩ := approve_ok_elim hok
    subst hs'
    exact ⟨ht, rfl, rfl, rfl⟩
  | approvalForAll hsender hok =>
    obtain ⟨hOp0, hs'⟩ := setApprovalForAll_ok_elim hok
    subst hs'
    exact ⟨ht, rfl, rfl, rfl⟩
  | @retireStep _ sender tokenId rts _ hsender hok =>
    obtain ⟨hOwn, hNr, hs'⟩ := retire_ok_elim hok
    have htne : t ≠ tokenId := by
      intro he
      rw [he, hNr] at ht
      exact Bool.noConfusion ht
    subst hs'
    refine ⟨?_, rfl, ?_, ?_⟩
    · show upd s.isRetired tokenId true t = true
      unfold upd
      rw [if_neg htne]
      exact ht
    · show upd s.retiredBy tokenId sender t = s.retiredBy t
      unfold upd
      rw [if_neg htne]
    · show upd s.retiredAt tokenId rts t = s.retiredAt t
      unfold upd
      rw [if_neg htne]
  | country hsender hok =>
    obtain ⟨_, _, hOw, hIr, hRb, hRa, _, _⟩ := appointCountryAdmin_tokenFields hok
    exact ⟨hIr ▸ ht, congrFun hOw t, congrFun hRb t, congrFun hRa t⟩
  | state hsender hok =>
    obtain ⟨_, _, hOw, hIr, hRb, hRa, _, _⟩ := appointStateAdmin_tokenFields hok
    exact ⟨hIr ▸ ht, congrFun hOw t, congrFun hRb t, congrFun hRa t⟩
  | city hsender hok =>
    obtain ⟨_, _, hOw, hIr, hRb, hRa, _, _⟩ := appointCityAdmin_tokenFields hok
    exact ⟨hIr ▸ ht, congrFun hOw t, congrFun hRb t, congrFun hRa t⟩
  | producer hsender hok =>
    obtain ⟨_, _, hOw, hIr, hRb, hRa, _, _⟩ := registerProducer_tokenFields hok
    exact ⟨hIr ▸ ht, congrFun hOw t, congrFun hRb t, congrFun hRa t⟩
  | buyer hsender hok =>
    obtain ⟨_, _, hOw, hIr, hRb, hRa, _, _⟩ := registerBuyer_tokenFields hok
    exact ⟨hIr ▸ ht, congrFun hOw t, congrFun hRb t, congrFun hRa t⟩
  | auditor hsender hok =>
    obtain ⟨_, _, hOw, hIr, hRb, hRa, _, _⟩ := registerAuditor_tokenFields hok
    exact ⟨hIr ▸ ht, congrFun hOw t, congrFun hRb t, congrFun hRa t⟩
  | pauseStep hsender hok =>
    obtain ⟨_, _, hOw, hIr, hRb, hRa, _, _⟩ := pause_tokenFields hok
    exact ⟨hIr ▸ ht, congrFun hOw t, congrFun hRb t, congrFun hRa t⟩
  | unpauseStep hsender hok =>
    obtain ⟨_, _, hOw, hIr, hRb, hRa, _, _⟩ := unpause_tokenFields hok
    exact ⟨hIr ▸ ht, congrFun hOw t, congrFun hRb t, congrFun hRa t⟩
  | grant hsender hok =>
    obtain ⟨_, _, hOw, hIr, hRb, hRa, _, _⟩ := grantRole_tokenFields hok
    exact ⟨hIr ▸ ht, congrFun hOw t, congrFun hRb t, congrFun hRa t⟩
  | revoke hsender hok =>
    obtain ⟨_, _, hOw, hIr, hRb, hRa, _, _⟩ := revokeRole_tokenFields hok
    exact ⟨hIr ▸ ht, congrFun hOw t, congrFun hRb t, congrFun hRa t⟩
  | renounce hsender hok =>
    obtain ⟨_, _, hOw, hIr, hRb, hRa, _, _⟩ := renounceRole_tokenFields hok
    exact ⟨hIr ▸ ht, congrFun hOw t, congrFun hRb t, congrFun hRa t⟩

/-- Any sequence of successful calls preserves a retired token's owner and
retirement bookkeeping. -/
theorem steps_retired_pres {s s' : CState} {t : Nat} (h : Steps s s') (hs : Inv s)
    (ht : s.isRetired t = true) :
    s'.isRetired t = true ∧ s'.owners t = s.owners t ∧
    s'.retiredBy t = s.retiredBy t ∧ s'.retiredAt t = s.retiredAt t := by
  induction h with
  | refl => exact ⟨ht, rfl, rfl, rfl⟩
  | tail hsteps hst ih =>
    obtain ⟨a1, a2, a3, a4⟩ := ih
    obtain ⟨b1, b2, b3, b4⟩ := step_retired_pres hst (steps_inv hsteps hs) a1
    exact ⟨b1, b2.trans a2, b3.trans a3, b4.trans a4⟩

/-- Constructive characterization of a well-formed mint: when all the checks
of mintWithCertification pass and the id range is fresh, the call succeeds
and produces exactly the documented state. -/
theorem mint_ok_spec {recover : Address → Nat → Hash → Sig → Option Address}
    {s : CState} {sender toAddr : Address} {amount : Nat} {certHash : Hash}
    {sig : Sig} {ts : Nat} {certifier : Address}
    (hp : s.paused = false) (ht0 : toAddr ≠ 0) (h0 : 0 < amount)
    (h1k : amount ≤ 1000) (hprod : s.isProducer toAddr = true)
    (hused : s.certificationHashUsed certHash = false)
    (hrec : recover toAddr amount certHash sig = some certifier)
    (hrole : hasRole s Role.CITY_ADMIN certifier = true)
    (hfresh : ∀ t, s.nextTokenId ≤ t → s.owners t = 0) :
    ∃ s', mintWithCertification recover s sender toAddr amount certHash sig ts = .ok s' ∧
      s'.nextTokenId = s.nextTokenId + amount ∧
      s'.totalSupply = s.totalSupply + amount ∧
      s'.paused = s.paused ∧
      s'.isProducer = s.isProducer ∧
      s'.certificationHashUsed certHash = true ∧
      (∀ h', h' ≠ certHash → s'.certificationHashUsed h' = s.certificationHashUsed h') ∧
      (∀ t, s'.owners t =
        if s.nextTokenId ≤ t ∧ t < s.nextTokenId + amount then toAddr else s.owners t) ∧
      (∀ t, s'.tokenCertifications t =
        if s.nextTokenId ≤ t ∧ t < s.nextTokenId + amount then
          ⟨toAddr, certifier, ts, "", certHash⟩ else s.tokenCertifications t) ∧
      s'.isRetired = s.isRetired ∧
      s'.events = Event.CreditsIssued toAddr amount s.nextTokenId
        (s.nextTokenId + amount - 1) certHash :: s.events := by
  obtain ⟨s2, hml⟩ := @mintLoop_progress toAddr certifier certHash ts amount
    { s with certificationHashUsed := upd s.certificationHashUsed certHash true }
    (fun t ht => hfresh t ht)
  obtain ⟨p, rm, ip, ch, ir, rb, ra, ta, oa, ev, nid, tsup, how, htc⟩ :=
    mintLoop_ok_spec _ _ _ hml
  dsimp only at p rm ip ch ir rb ra ta oa ev nid tsup how htc
  refine ⟨{ s2 with events := Event.CreditsIssued toAddr amount s.nextTokenId (s.nextTokenId + amount - 1) certHash :: s2.events },
    ?_, nid, tsup, p, ip, ?_, ?_, how, htc, ir, ?_⟩
  · unfold mintWithCertification
    rw [hp, if_neg Bool.false_ne_true, if_neg ht0, if_neg (not_not_intro ⟨h0, h1k⟩),
      hprod, if_neg (not_not_intro rfl), hused, if_neg Bool.false_ne_true, hrec]
    dsimp only
    rw [hp] at hml
    rw [hrole, if_neg (not_not_intro rfl), hml]
  · show s2.certificationHashUsed certHash = true
    rw [ch]
    unfold upd
    rw [if_pos rfl]
  · intro h' hne
    show s2.certificationHashUsed h' = s.certificationHashUsed h'
    rw [ch]
    unfold upd
    rw [if_neg hne]
  · show Event.CreditsIssued toAddr amount s.nextTokenId
      (s.nextTokenId + amount - 1) certHash :: s2.events = _
    rw [ev]

/-- A mint whose earlier checks pass but whose certification hash was already
consumed fails with HashReused. -/
theorem mint_hashUsed_error {recover : Address → Nat → Hash → Sig → Option Address}
    {s : CState} {sender toAddr : Address} {amount : Nat} {certHash : Hash}
    {sig : Sig} {ts : Nat}
    (hp : s.paused = false) (ht0 : toAddr ≠ 0) (h0 : 0 < amount)
    (h1k : amount ≤ 1000) (hprod : s.isProducer toAddr = true)
    (hused : s.certificationHashUsed certHash = true) :
    mintWithCertification recover s sender toAddr amount certHash sig ts =
      .error .HashReused := by
  unfold mintWithCertification
  rw [hp, if_neg Bool.false_ne_true, if_neg ht0, if_neg (not_not_intro ⟨h0, h1k⟩),
    hprod, if_neg (not_not_intro rfl), hused, if_pos rfl]

/-- mintWithCertification aborts first on the whenNotPaused modifier. -/
theorem mint_paused {recover : Address → Nat → Hash → Sig → Option Address}
    {s : CState} {sender toAddr : Address} {amount : Nat} {certHash : Hash}
    {sig : Sig} {ts : Nat} (h : s.paused = true) :
    mintWithCertification recover s sender toAddr amount certHash sig ts =
      .error .Paused := by
  unfold mintWithCertification
  rw [h, if_pos rfl]

/-- transferFrom aborts with Paused after the zero-receiver check. -/
theorem transferFrom_paused {s : CState} {sender fromAddr toAddr : Address}
    {tokenId : Nat} (h : s.paused = true) (ht : toAddr ≠ 0) :
    transferFrom s sender fromAddr toAddr tokenId = .error .Paused := by
  unfold transferFrom
  rw [if_neg ht, h, if_pos rfl]

/-- A transfer of a retired, owned token fails with RetiredCreditTransfer
when the contract is not paused and the receiver is nonzero. -/
theorem transferFrom_retired {s : CState} {sender fromAddr toAddr : Address}
    {tokenId : Nat} (hnp : s.paused = false) (ht : toAddr ≠ 0)
    (hr : s.isRetired tokenId = true) (hown : s.owners tokenId ≠ 0) :
    transferFrom s sender fromAddr toAddr tokenId =
      .error .RetiredCreditTransfer := by
  unfold transferFrom
  rw [if_neg ht, hnp, if_neg Bool.false_ne_true]
  dsimp only
  rw [if_pos ⟨hown, hr⟩]

/-- Retiring an already retired token by its owner fails with AlreadyRetired. -/
theorem retire_already_retired {s : CState} {sender : Address} {tokenId ts : Nat}
    (hown : s.owners tokenId = sender) (hr : s.isRetired tokenId = true) :
    retire s sender tokenId ts = .error .AlreadyRetired := by
  unfold retire
  rw [if_neg (not_not_intro hown), hr, if_pos rfl]

/-- Retiring a token one does not own fails with NotOwner. -/
theorem retire_not_owner {s : CState} {sender : Address} {tokenId ts : Nat}
    (hown : s.owners tokenId ≠ sender) :
    retire s sender tokenId ts = .error .NotOwner := by
  unfold retire
  rw [if_pos hown]

/-- A mint whose earlier checks pass but whose recovered certifier lacks
CITY_ADMIN_ROLE fails with InvalidCertifierSignature. -/
theorem mint_invalid_certifier {recover : Address → Nat → Hash → Sig → Option Address}
    {s : CState} {sender toAddr : Address} {amount : Nat} {certHash : Hash}
    {sig : Sig} {ts : Nat} {certifier : Address}
    (hp : s.paused = false) (ht0 : toAddr ≠ 0) (h0 : 0 < amount)
    (h1k : amount ≤ 1000) (hprod : s.isProducer toAddr = true)
    (hused : s.certificationHashUsed certHash = false)
    (hrec : recover toAddr amount certHash sig = some certifier)
    (hrole : hasRole s Role.CITY_ADMIN certifier = false) :
    mintWithCertification recover s sender toAddr amount certHash sig ts =
      .error .InvalidCertifierSignature := by
  unfold mintWithCertification
  rw [hp, if_neg Bool.false_ne_true, if_neg ht0, if_neg (not_not_intro ⟨h0, h1k⟩),
    hprod, if_neg (not_not_intro rfl), hused, if_neg Bool.false_ne_true, hrec]
  dsimp only
  rw [hrole, if_pos Bool.false_ne_true]

/-- A mint whose earlier checks pass but whose signature makes ECDSA recovery
revert aborts with the EcdsaFault condition, not InvalidCertifierSignature. -/
theorem mint_malformed_sig {recover : Address → Nat → Hash → Sig → Option Address}
    {s : CState} {sender toAddr : Address} {amount : Nat} {certHash : Hash}
    {sig : Sig} {ts : Nat}
    (hp : s.paused = false) (ht0 : toAddr ≠ 0) (h0 : 0 < amount)
    (h1k : amount ≤ 1000) (hprod : s.isProducer toAddr = true)
    (hused : s.certificationHashUsed certHash = false)
    (hrec : recover toAddr amount certHash sig = none) :
    mintWithCertification recover s sender toAddr amount certHash sig ts =
      .error .EcdsaFault := by
  unfold mintWithCertification
  rw [hp, if_neg Bool.false_ne_true, if_neg ht0, if_neg (not_not_intro ⟨h0, h1k⟩),
    hprod, if_neg (not_not_intro rfl), hused, if_neg Bool.false_ne_true, hrec]

/-- appointCountryAdmin without MAIN_ADMIN_ROLE fails on the onlyRole check. -/
theorem appointCountryAdmin_no_role {s : CState} {sender admin : Address}
    {cid : Nat} (h : hasRole s Role.MAIN_ADMIN sender = false) :
    appointCountryAdmin s sender admin cid = .error .InsufficientCapability := by
  unfold appointCountryAdmin
  rw [h, if_pos Bool.false_ne_true]

/-- appointStateAdmin without COUNTRY_ADMIN_ROLE fails on the onlyRole check. -/
theorem appointStateAdmin_no_role {s : CState} {sender admin : Address}
    {sid : Nat} (h : hasRole s Role.COUNTRY_ADMIN sender = false) :
    appointStateAdmin s sender admin sid = .error .InsufficientCapability := by
  unfold appointStateAdmin
  rw [h, if_pos Bool.false_ne_true]

/-- appointCityAdmin without STATE_ADMIN_ROLE fails on the onlyRole check. -/
theorem appointCityAdmin_no_role {s : CState} {sender admin : Address}
    {cid : Nat} (h : hasRole s Role.STATE_ADMIN sender = false) :
    appointCityAdmin s sender admin cid = .error .InsufficientCapability := by
  unfold appointCityAdmin
  rw [h, if_pos Bool.false_ne_true]

/-- registerProducer without CITY_ADMIN_ROLE fails on the onlyRole check. -/
theorem registerProducer_no_role {s : CState} {sender producer : Address}
    (h : hasRole s Role.CITY_ADMIN sender = false) :
    registerProducer s sender producer = .error .InsufficientCapability := by
  unfold registerProducer
  rw [h, if_pos Bool.false_ne_true]

/-- A successful appointCountryAdmin implies the caller held MAIN_ADMIN_ROLE. -/
theorem appointCountryAdmin_ok_role {s : CState} {sender admin : Address}
    {cid : Nat} {s' : CState} (h : appointCountryAdmin s sender admin cid = .ok s') :
    hasRole s Role.MAIN_ADMIN sender = true := by
  unfold appointCountryAdmin at h
  split_ifs at h with h1
  exact h1

/-- A successful appointStateAdmin implies the caller held COUNTRY_ADMIN_ROLE. -/
theorem appointStateAdmin_ok_role {s : CState} {sender admin : Address}
    {sid : Nat} {s' : CState} (h : appointStateAdmin s sender admin sid = .ok s') :
    hasRole s Role.COUNTRY_ADMIN sender = true := by
  unfold appointStateAdmin at h
  split_ifs at h with h1
  exact h1

/-- A successful appointCityAdmin implies the caller held STATE_ADMIN_ROLE. -/
theorem appointCityAdmin_ok_role {s : CState} {sender admin : Address}
    {cid : Nat} {s' : CState} (h : appointCityAdmin s sender admin cid = .ok s') :
    hasRole s Role.STATE_ADMIN sender = true := by
  unfold appointCityAdmin at h
  split_ifs at h with h1
  exact h1

/-- A successful registerProducer implies the caller held CITY_ADMIN_ROLE. -/
theorem registerProducer_ok_role {s : CState} {sender producer : Address}
    {s' : CState} (h : registerProducer s sender producer = .ok s') :
    hasRole s Role.CITY_ADMIN sender = true := by
  unfold registerProducer at h
  split_ifs at h with h1
  exact h1

/-- Re-appointing an existing country admin fails with AlreadyHeld. -/
theorem appointCountryAdmin_already_held {s : CState} {sender admin : Address}
    {cid : Nat} (hrole : hasRole s Role.MAIN_ADMIN sender = true)
    (h0 : admin ≠ 0) (h : s.isCountryAdmin admin = true) :
    appointCountryAdmin s sender admin cid = .error .AlreadyHeld := by
  unfold appointCountryAdmin
  rw [hrole, if_neg (not_not_intro rfl), if_neg h0, h, if_pos rfl]

/-- Re-appointing an existing state admin fails with AlreadyHeld. -/
theorem appointStateAdmin_already_held {s : CState} {sender admin : Address}
    {sid : Nat} (hrole : hasRole s Role.COUNTRY_ADMIN sender = true)
    (h0 : admin ≠ 0) (h : s.isStateAdmin admin = true) :
    appointStateAdmin s sender admin sid = .error .AlreadyHeld := by
  unfold appointStateAdmin
  rw [hrole, if_neg (not_not_intro rfl), if_neg h0, h, if_pos rfl]

/-- Re-appointing an existing city admin fails with AlreadyHeld. -/
theorem appointCityAdmin_already_held {s : CState} {sender admin : Address}
    {cid : Nat} (hrole : hasRole s Role.STATE_ADMIN sender = true)
    (h0 : admin ≠ 0) (h : s.isCityAdmin admin = true) :
    appointCityAdmin s sender admin cid = .error .AlreadyHeld := by
  unfold appointCityAdmin
  rw [hrole, if_neg (not_not_intro rfl), if_neg h0, h, if_pos rfl]

theorem reachable_chain0 : Reachable chain0 :=
  Reachable.deploy (by decide)

theorem reachable_chain1 : Reachable chain1 :=
  reachable_chain0.step (@Step.country chain0 1 2 10 chain1 (by decide) rfl)

theorem reachable_chain2 : Reachable chain2 :=
  reachable_chain1.step (@Step.state chain1 2 3 20 chain2 (by decide) rfl)

theorem reachable_chain3 : Reachable chain3 :=
  reachable_chain2.step (@Step.city chain2 3 4 30 chain3 (by decide) rfl)

theorem reachable_chain4 : Reachable chain4 :=
  reachable_chain3.step (@Step.producer chain3 4 5 chain4 (by decide) rfl)

theorem reachable_chain5 : Reachable chain5 :=
  reachable_chain4.step (@Step.mint recOk chain4 9 5 2 7 [] 0 chain5 (by decide) rfl)

theorem reachable_chain6 : Reachable chain6 :=
  reachable_chain5.step (@Step.retireStep chain5 5 1 99 chain6 (by decide) rfl)

theorem reachable_chain7 : Reachable chain7 :=
  reachable_chain6.step (@Step.pauseStep chain6 1 chain7 (by decide) rfl)

theorem reachable_chain5p : Reachable chain5p :=
  reachable_chain5.step (@Step.pauseStep chain5 1 chain5p (by decide) rfl)

/-- C1: on a well-formed call from a reachable state (not paused, nonzero
registered producer recipient, amount in (0, 1000], unused certification
hash, signature recovering to a city admin), the first mintWithCertification
succeeds and mints `amount` Credits with contiguous ids
[nextTokenId, nextTokenId + amount - 1] owned by the recipient, marks the
certification hash consumed in the same atomic state transition, and the
identical second call fails with HashReused; the error return models the
revert, which leaves the Credit count and all ownership unchanged. -/
theorem mint_certification_replay
    {recover : Address → Nat → Hash → Sig → Option Address} {s : CState}
    {sender sender' toAddr : Address} {amount : Nat} {certHash : Hash}
    {sig : Sig} {ts ts' : Nat} {certifier : Address}
    (hp : s.paused = false) (ht0 : toAddr ≠ 0) (h0 : 0 < amount)
    (h1k : amount ≤ 1000) (hprod : s.isProducer toAddr = true)
    (hused : s.certificationHashUsed certHash = false)
    (hrec : recover toAddr amount certHash sig = some certifier)
    (hrole : hasRole s Role.CITY_ADMIN certifier = true)
    (hreach : Reachable s) :
    ∃ s', mintWithCertification recover s sender toAddr amount certHash sig ts = .ok s' ∧
      (∀ i, i < amount → s'.owners (s.nextTokenId + i) = toAddr) ∧
      s'.nextTokenId = s.nextTokenId + amount ∧
      s'.totalSupply = s.totalSupply + amount ∧
      s'.certificationHashUsed certHash = true ∧
      mintWithCertification recover s' sender' toAddr amount certHash sig ts' =
        .error .HashReused := by
  obtain ⟨s', heq, nid, tsup, p, ip, hchash, hother, how, htc, ir, hev⟩ :=
    mint_ok_spec hp ht0 h0 h1k hprod hused hrec hrole (reachable_inv hreach).2.2.1
  refine ⟨s', heq, ?_, nid, tsup, hchash, ?_⟩
  · intro i hi
    rw [how (s.nextTokenId + i), if_pos ⟨Nat.le_add_right _ _, by omega⟩]
  · exact mint_hashUsed_error (p.trans hp) ht0 h0 h1k
      ((congrFun ip toAddr).trans hprod) hchash

/-- Witness for C1: the concrete minting scenario (producer 5, city admin 4,
amount 2, hash 7) run from the concrete appointment chain. -/
theorem mint_certification_replay_witness :
    ∃ s', mintWithCertification recOk chain4 9 5 2 7 [] 0 = .ok s' ∧
      (∀ i, i < 2 → s'.owners (chain4.nextTokenId + i) = 5) ∧
      s'.nextTokenId = chain4.nextTokenId + 2 ∧
      s'.totalSupply = chain4.totalSupply + 2 ∧
      s'.certificationHashUsed 7 = true ∧
      mintWithCertification recOk s' 9 5 2 7 [] 1 = .error .HashReused :=
  mint_certification_replay (by decide) (by decide) (by decide) (by decide)
    (by decide) (by decide) rfl (by decide) reachable_chain4

/-- C2 counterexample: in the reachable paused state chain5p (and the claim
quantifies over retire and the appointment operations), retire succeeds and
changes state, and appointCountryAdmin succeeds and records the role, rather
than both aborting with Paused as the claim requires. -/
theorem pause_scope_counterexample :
    chain5p.paused = true ∧
    retire chain5p 5 1 99 = .ok (exS (retire chain5p 5 1 99)) ∧
    (exS (retire chain5p 5 1 99)).isRetired 1 = true ∧
    appointCountryAdmin chain5p 1 6 10 =
      .ok (exS (appointCountryAdmin chain5p 1 6 10)) ∧
    (exS (appointCountryAdmin chain5p 1 6 10)).isCountryAdmin 6 = true :=
  ⟨by decide, rfl, by decide, rfl, by decide⟩

/-- C2 (amended): while paused, mintWithCertification aborts with Paused as
its first check, and transferFrom aborts with Paused right after the
zero-receiver check; the retire, appointment and registration entry points
carry no pause guard (see the counterexample) and proceed normally. -/
theorem paused_blocks_mint_and_transfer :
    (∀ (recover : Address → Nat → Hash → Sig → Option Address) (s : CState)
      (sender toAddr : Address) (amount : Nat) (certHash : Hash) (sig : Sig)
      (ts : Nat), s.paused = true →
      mintWithCertification recover s sender toAddr amount certHash sig ts =
        .error .Paused) ∧
    (∀ (s : CState) (sender fromAddr toAddr : Address) (tokenId : Nat),
      s.paused = true → toAddr ≠ 0 →
      transferFrom s sender fromAddr toAddr tokenId = .error .Paused) :=
  ⟨fun _ _ _ _ _ _ _ _ h => mint_paused h,
   fun _ _ _ _ _ h ht => transferFrom_paused h ht⟩

/-- Witness for the amended C2: both pause guards observed on the concrete
paused state chain5p. -/
theorem paused_blocks_mint_and_transfer_witness :
    mintWithCertification recOk chain5p 9 5 1 8 [] 0 = .error .Paused ∧
    transferFrom chain5p 5 5 6 1 = .error .Paused :=
  ⟨paused_blocks_mint_and_transfer.1 recOk chain5p 9 5 1 8 [] 0 (by decide),
   paused_blocks_mint_and_transfer.2 chain5p 5 5 6 1 (by decide) (by decide)⟩

/-- C3: the byte string the contract hashes (abi.encodePacked: 84 bytes, the
address unpadded) differs from the byte string the backend verifier hashes
(abi.encode: 96 bytes, the address left-padded to 32 bytes) already at the
concrete tuple (producer 0x...01, amount 1, certificationHash 0x...02), so
the two sides sign/verify different messages and recover different signers. -/
theorem certification_encoding_divergence :
    (contractMessageBytes 1 1 2).length = 84 ∧
    (backendMessageBytes 1 1 2).length = 96 ∧
    contractMessageBytes 1 1 2 ≠ backendMessageBytes 1 1 2 := by
  refine ⟨by decide, by decide, by decide⟩

/-- C4 counterexample: chain7 is a reachable state with retired token 1 in
which the contract is paused; transferring that token fails with Paused, not
with RetiredCreditTransfer as the claim demands of every transfer. -/
theorem retired_transfer_paused_counterexample :
    chain7.paused = true ∧ chain7.isRetired 1 = true ∧ chain7.owners 1 = 5 ∧
    transferFrom chain7 5 5 6 1 = .error .Paused ∧
    Err.Paused ≠ Err.RetiredCreditTransfer :=
  ⟨by decide, by decide, by decide, rfl, by decide⟩

/-- C4 (amended): once retired, a Credit's owner and its retirement
bookkeeping (isRetired, retiredBy, retiredAt) never change over any sequence
of successful calls from a reachable state; any transfer of a retired token
fails — with RetiredCreditTransfer when the contract is not paused and the
receiver is nonzero (with Paused or InvalidReceiver otherwise); a second
retire by the owner fails with AlreadyRetired; and retire fails with NotOwner
unless the caller currently owns the Credit. -/
theorem retirement_terminal :
    (∀ (s s' : CState) (t : Nat), Reachable s → Steps s s' →
      s.isRetired t = true →
      s'.isRetired t = true ∧ s'.owners t = s.owners t ∧
      s'.retiredBy t = s.retiredBy t ∧ s'.retiredAt t = s.retiredAt t) ∧
    (∀ (s : CState) (sender fromAddr toAddr : Address) (t : Nat), Reachable s →
      s.isRetired t = true → s.paused = false → toAddr ≠ 0 →
      transferFrom s sender fromAddr toAddr t = .error .RetiredCreditTransfer) ∧
    (∀ (s : CState) (sender : Address) (t ts : Nat), s.owners t = sender →
      s.isRetired t = true → retire s sender t ts = .error .AlreadyRetired) ∧
    (∀ (s : CState) (sender : Address) (t ts : Nat), s.owners t ≠ sender →
      retire s sender t ts = .error .NotOwner) := by
  refine ⟨?_, ?_, ?_, ?_⟩
  · intro s s' t hr hsteps ht
    exact steps_retired_pres hsteps (reachable_inv hr) ht
  · intro s sender fromAddr toAddr t hr ht hnp h0
    obtain ⟨_, _, _, _, i5, _, _⟩ := reachable_inv hr
    exact transferFrom_retired hnp h0 ht (i5 t ht)
  · intro s sender t ts hown ht
    exact retire_already_retired hown ht
  · intro s sender t ts hown
    exact retire_not_owner hown

/-- Witness for the amended C4 on the concrete retired token 1 of chain6:
preservation along a further pause step, the RetiredCreditTransfer failure,
the AlreadyRetired failure and the NotOwner failure. -/
theorem retirement_terminal_witness :
    (chain7.isRetired 1 = true ∧ chain7.owners 1 = chain6.owners 1 ∧
      chain7.retiredBy 1 = chain6.retiredBy 1 ∧
      chain7.retiredAt 1 = chain6.retiredAt 1) ∧
    transferFrom chain6 9 5 6 1 = .error .RetiredCreditTransfer ∧
    retire chain6 5 1 123 = .error .AlreadyRetired ∧
    retire chain6 9 1 123 = .error .NotOwner :=
  ⟨retirement_terminal.1 chain6 chain7 1 reachable_chain6
      (Steps.tail Steps.refl (@Step.pauseStep chain6 1 chain7 (by decide) rfl))
      (by decide),
   retirement_terminal.2.1 chain6 9 5 6 1 reachable_chain6 (by decide) (by decide)
      (by decide),
   retirement_terminal.2.2.1 chain6 5 1 123 (by decide) (by decide),
   retirement_terminal.2.2.2 chain6 9 1 123 (by decide)⟩

/-- C5: the strict 4-level capability chain of the appointment protocol —
each appointment entry point fails with InsufficientCapability (onlyRole,
checked before anything is recorded; the error return models the revert)
whenever the caller lacks the required role, and conversely each succeeds
only when the caller holds it: MAIN_ADMIN for appointCountryAdmin,
COUNTRY_ADMIN for appointStateAdmin, STATE_ADMIN for appointCityAdmin and
CITY_ADMIN for registerProducer. -/
theorem appointment_capability_chain :
    (∀ (s : CState) (sender admin : Address) (cid : Nat),
      hasRole s Role.MAIN_ADMIN sender = false →
      appointCountryAdmin s sender admin cid = .error .InsufficientCapability) ∧
    (∀ (s : CState) (sender admin : Address) (sid : Nat),
      hasRole s Role.COUNTRY_ADMIN sender = false →
      appointStateAdmin s sender admin sid = .error .InsufficientCapability) ∧
    (∀ (s : CState) (sender admin : Address) (cid : Nat),
      hasRole s Role.STATE_ADMIN sender = false →
      appointCityAdmin s sender admin cid = .error .InsufficientCapability) ∧
    (∀ (s : CState) (sender producer : Address),
      hasRole s Role.CITY_ADMIN sender = false →
      registerProducer s sender producer = .error .InsufficientCapability) ∧
    (∀ (s : CState) (sender admin : Address) (cid : Nat) (s' : CState),
      appointCountryAdmin s sender admin cid = .ok s' →
      hasRole s Role.MAIN_ADMIN sender = true) ∧
    (∀ (s : CState) (sender admin : Address) (sid : Nat) (s' : CState),
      appointStateAdmin s sender admin sid = .ok s' →
      hasRole s Role.COUNTRY_ADMIN sender = true) ∧
    (∀ (s : CState) (sender admin : Address) (cid : Nat) (s' : CState),
      appointCityAdmin s sender admin cid = .ok s' →
      hasRole s Role.STATE_ADMIN sender = true) ∧
    (∀ (s : CState) (sender producer : Address) (s' : CState),
      registerProducer s sender producer = .ok s' →
      hasRole s Role.CITY_ADMIN sender = true) :=
  ⟨fun _ _ _ _ h => appointCountryAdmin_no_role h,
   fun _ _ _ _ h => appointStateAdmin_no_role h,
   fun _ _ _ _ h => appointCityAdmin_no_role h,
   fun _ _ _ h => registerProducer_no_role h,
   fun _ _ _ _ _ h => appointCountryAdmin_ok_role h,
   fun _ _ _ _ _ h => appointStateAdmin_ok_role h,
   fun _ _ _ _ _ h => appointCityAdmin_ok_role h,
   fun _ _ _ _ h => registerProducer_ok_role h⟩

/-- Witness for C5: roleless address 2 fails each appointment on the fresh
deployment, and each successful appointment of the concrete chain implies
the appointing caller's role. -/
theorem appointment_capability_chain_witness :
    appointCountryAdmin chain0 2 6 1 = .error .InsufficientCapability ∧
    appointStateAdmin chain0 2 6 1 = .error .InsufficientCapability ∧
    appointCityAdmin chain0 2 6 1 = .error .InsufficientCapability ∧
    registerProducer chain0 2 6 = .error .InsufficientCapability ∧
    hasRole chain0 Role.MAIN_ADMIN 1 = true ∧
    hasRole chain1 Role.COUNTRY_ADMIN 2 = true ∧
    hasRole chain2 Role.STATE_ADMIN 3 = true ∧
    hasRole chain3 Role.CITY_ADMIN 4 = true :=
  ⟨appointment_capability_chain.1 chain0 2 6 1 (by decide),
   appointment_capability_chain.2.1 chain0 2 6 1 (by decide),
   appointment_capability_chain.2.2.1 chain0 2 6 1 (by decide),
   appointment_capability_chain.2.2.2.1 chain0 2 6 (by decide),
   appointment_capability_chain.2.2.2.2.1 chain0 1 2 10 chain1 rfl,
   appointment_capability_chain.2.2.2.2.2.1 chain1 2 3 20 chain2 rfl,
   appointment_capability_chain.2.2.2.2.2.2.1 chain2 3 4 30 chain3 rfl,
   appointment_capability_chain.2.2.2.2.2.2.2 chain3 4 5 chain4 rfl⟩

/-- C6 counterexample: a malformed signature (empty blob, caught by the
OpenZeppelin ECDSA length gate modelled in recLen) makes mintWithCertification
abort with the low-level EcdsaFault condition instead of the ordinary
InvalidCertifierSignature outcome the claim requires. -/
theorem malformed_signature_fault_counterexample :
    recLen 5 1 7 [] = none ∧
    mintWithCertification recLen chain4 9 5 1 7 [] 0 = .error .EcdsaFault ∧
    Err.EcdsaFault ≠ Err.InvalidCertifierSignature :=
  ⟨rfl, rfl, by decide⟩

/-- C6 (amended): the off-chain verifier
(BlockchainService.verifyCertificationSignature) wraps its body in try/catch
and therefore yields valid=false with the zero signer on any recovery
failure, never faulting; the on-chain check inside mintWithCertification, by
contrast, aborts with an ECDSA fault (OpenZeppelin revert) on a malformed
signature — still minting nothing — rather than an ordinary
invalid-certification outcome. -/
theorem malformed_signature_handling :
    (∀ (recover : Address → Nat → Hash → Sig → Option Address)
      (q : Address → Bool) (p : Address) (a : Nat) (h : Hash) (sig : Sig),
      recover p a h sig = none →
      verifyCertificationSignature recover q p a h sig = (false, 0)) ∧
    (∀ (recover : Address → Nat → Hash → Sig → Option Address) (s : CState)
      (sender toAddr : Address) (amount : Nat) (certHash : Hash) (sig : Sig)
      (ts : Nat), s.paused = false → toAddr ≠ 0 → 0 < amount → amount ≤ 1000 →
      s.isProducer toAddr = true → s.certificationHashUsed certHash = false →
      recover toAddr amount certHash sig = none →
      mintWithCertification recover s sender toAddr amount certHash sig ts =
        .error .EcdsaFault) := by
  constructor
  · intro recover q p a h sig hrec
    unfold verifyCertificationSignature
    rw [hrec]
  · intro recover s sender toAddr amount certHash sig ts hp ht0 h0 h1k hprod hused hrec
    exact mint_malformed_sig hp ht0 h0 h1k hprod hused hrec

/-- Witness for the amended C6 at the concrete malformed (empty) signature. -/
theorem malformed_signature_handling_witness :
    verifyCertificationSignature recLen (fun _ => true) 5 1 7 [] = (false, 0) ∧
    mintWithCertification recLen chain4 9 5 2 7 [] 0 = .error .EcdsaFault :=
  ⟨malformed_signature_handling.1 recLen (fun _ => true) 5 1 7 [] rfl,
   malformed_signature_handling.2 recLen chain4 9 5 2 7 [] 0 (by decide) (by decide)
     (by decide) (by decide) (by decide) (by decide) rfl⟩

/-- C7: a successful well-formed mintWithCertification mints exactly `amount`
Credits with contiguous ids starting at the high-water mark + 1 (equal to
totalSupply + 1, i.e. ids 1..amount on a fresh ledger), each owned by the
recipient and each carrying the Certification Record (producer = recipient,
certifier = the recovered city-admin signer, shared hash), leaves every
other Credit's owner unchanged, and emits CreditsIssued with
(to, amount, firstId, lastId, certificationHash). -/
theorem mint_success_postconditions
    {recover : Address → Nat → Hash → Sig → Option Address} {s : CState}
    {sender toAddr : Address} {amount : Nat} {certHash : Hash} {sig : Sig}
    {ts : Nat} {certifier : Address}
    (hp : s.paused = false) (ht0 : toAddr ≠ 0) (h0 : 0 < amount)
    (h1k : amount ≤ 1000) (hprod : s.isProducer toAddr = true)
    (hused : s.certificationHashUsed certHash = false)
    (hrec : recover toAddr amount certHash sig = some certifier)
    (hrole : hasRole s Role.CITY_ADMIN certifier = true)
    (hreach : Reachable s) :
    ∃ s', mintWithCertification recover s sender toAddr amount certHash sig ts = .ok s' ∧
      (∀ i, i < amount → s'.owners (s.totalSupply + 1 + i) = toAddr) ∧
      (∀ i, i < amount → s'.tokenCertifications (s.totalSupply + 1 + i) =
        ⟨toAddr, certifier, ts, "", certHash⟩) ∧
      (∀ t, t < s.totalSupply + 1 → s'.owners t = s.owners t) ∧
      (∀ t, s.totalSupply + 1 + amount ≤ t → s'.owners t = s.owners t) ∧
      s'.totalSupply = s.totalSupply + amount ∧
      s'.events = Event.CreditsIssued toAddr amount (s.totalSupply + 1)
        (s.totalSupply + amount) certHash :: s.events := by
  have hNid : s.nextTokenId = s.totalSupply + 1 := (reachable_inv hreach).2.1
  obtain ⟨s', heq, nid, tsup, p, ip, hchash, hother, how, htc, ir, hev⟩ :=
    mint_ok_spec hp ht0 h0 h1k hprod hused hrec hrole (reachable_inv hreach).2.2.1
  rw [hNid] at how htc hev nid
  refine ⟨s', heq, ?_, ?_, ?_, ?_, tsup, ?_⟩
  · intro i hi
    rw [how (s.totalSupply + 1 + i), if_pos ⟨Nat.le_add_right _ _, by omega⟩]
  · intro i hi
    rw [htc (s.totalSupply + 1 + i), if_pos ⟨Nat.le_add_right _ _, by omega⟩]
  · intro t htl
    rw [how t, if_neg (by omega)]
  · intro t htg
    rw [how t, if_neg (by omega)]
  · have harith : s.totalSupply + 1 + amount - 1 = s.totalSupply + amount := by omega
    rw [hev, harith]

/-- Witness for C7: the concrete scenario — city admin 4 signs for producer
5, amount 2, hash 7; ids 1 and 2 are minted on the fresh ledger with their
certification records and the CreditsIssued event. -/
theorem mint_success_postconditions_witness :
    ∃ s', mintWithCertification recOk chain4 9 5 2 7 [] 0 = .ok s' ∧
      (∀ i, i < 2 → s'.owners (chain4.totalSupply + 1 + i) = 5) ∧
      (∀ i, i < 2 → s'.tokenCertifications (chain4.totalSupply + 1 + i) =
        ⟨5, 4, 0, "", 7⟩) ∧
      (∀ t, t < chain4.totalSupply + 1 → s'.owners t = chain4.owners t) ∧
      (∀ t, chain4.totalSupply + 1 + 2 ≤ t → s'.owners t = chain4.owners t) ∧
      s'.totalSupply = chain4.totalSupply + 2 ∧
      s'.events = Event.CreditsIssued 5 2 (chain4.totalSupply + 1)
        (chain4.totalSupply + 2) 7 :: chain4.events :=
  mint_success_postconditions (by decide) (by decide) (by decide) (by decide)
    (by decide) (by decide) rfl (by decide) reachable_chain4

/-- C8 counterexample: with amount 0 and a signature recovering to address 8
(which does not hold city_admin), mintWithCertification fails with
InvalidAmount — an earlier check — not with InvalidCertifierSignature as the
claim's universal quantification over amount requires. -/
theorem invalid_amount_before_signature_counterexample :
    hasRole chain4 Role.CITY_ADMIN 8 = false ∧
    mintWithCertification recTo8 chain4 9 5 0 7 [] 0 = .error .InvalidAmount ∧
    Err.InvalidAmount ≠ Err.InvalidCertifierSignature :=
  ⟨by decide, rfl, by decide⟩

/-- C8 (amended): whenever the checks preceding signature verification pass
(not paused, nonzero recipient, 0 < amount ≤ 1000, registered producer,
unused hash) and the signature recovers to a signer without city_admin,
mintWithCertification fails with InvalidCertifierSignature and mints
nothing (the error return models the revert, leaving hash ledger and token
state unchanged); when an earlier check fails the call also mints nothing
but reports that earlier error instead. -/
theorem invalid_certifier_rejection :
    ∀ (recover : Address → Nat → Hash → Sig → Option Address) (s : CState)
      (sender toAddr : Address) (amount : Nat) (certHash : Hash) (sig : Sig)
      (ts : Nat) (certifier : Address), s.paused = false → toAddr ≠ 0 →
      0 < amount → amount ≤ 1000 → s.isProducer toAddr = true →
      s.certificationHashUsed certHash = false →
      recover toAddr amount certHash sig = some certifier →
      hasRole s Role.CITY_ADMIN certifier = false →
      mintWithCertification recover s sender toAddr amount certHash sig ts =
        .error .InvalidCertifierSignature := by
  intro recover s sender toAddr amount certHash sig ts certifier hp ht0 h0 h1k
    hprod hused hrec hrole
  exact mint_invalid_certifier hp ht0 h0 h1k hprod hused hrec hrole

/-- Witness for the amended C8: the non-admin signer 8 is rejected on the
concrete well-formed call. -/
theorem invalid_certifier_rejection_witness :
    mintWithCertification recTo8 chain4 9 5 1 7 [] 0 =
      .error .InvalidCertifierSignature :=
  invalid_certifier_rejection recTo8 chain4 9 5 1 7 [] 0 8 (by decide) (by decide)
    (by decide) (by decide) (by decide) (by decide) rfl (by decide)

/-- C9 counterexample: main admin 1 appoints 2 as country admin (chain1);
country admin 2 then appoints itself state admin, and the call succeeds —
afterwards account 2 simultaneously holds both country_admin and
state_admin, contradicting the one-level-at-a-time claim. -/
theorem multi_level_admin_counterexample :
    appointStateAdmin chain1 2 2 20 = .ok (exS (appointStateAdmin chain1 2 2 20)) ∧
    (exS (appointStateAdmin chain1 2 2 20)).isCountryAdmin 2 = true ∧
    (exS (appointStateAdmin chain1 2 2 20)).isStateAdmin 2 = true ∧
    hasRole (exS (appointStateAdmin chain1 2 2 20)) Role.COUNTRY_ADMIN 2 = true ∧
    hasRole (exS (appointStateAdmin chain1 2 2 20)) Role.STATE_ADMIN 2 = true :=
  ⟨rfl, by decide, by decide, by decide, by decide⟩

/-- C9 (amended): the appointment protocol only prevents duplicate holding of
the same admin level — re-appointing an account to a role it already holds
fails with AlreadyHeld (after the onlyRole and zero-address checks) — but it
does not prevent one account from holding admin roles at several levels
simultaneously (see the counterexample). -/
theorem reappointment_already_held :
    (∀ (s : CState) (sender admin : Address) (cid : Nat),
      hasRole s Role.MAIN_ADMIN sender = true → admin ≠ 0 →
      s.isCountryAdmin admin = true →
      appointCountryAdmin s sender admin cid = .error .AlreadyHeld) ∧
    (∀ (s : CState) (sender admin : Address) (sid : Nat),
      hasRole s Role.COUNTRY_ADMIN sender = true → admin ≠ 0 →
      s.isStateAdmin admin = true →
      appointStateAdmin s sender admin sid = .error .AlreadyHeld) ∧
    (∀ (s : CState) (sender admin : Address) (cid : Nat),
      hasRole s Role.STATE_ADMIN sender = true → admin ≠ 0 →
      s.isCityAdmin admin = true →
      appointCityAdmin s sender admin cid = .error .AlreadyHeld) :=
  ⟨fun _ _ _ _ hr h0 h => appointCountryAdmin_already_held hr h0 h,
   fun _ _ _ _ hr h0 h => appointStateAdmin_already_held hr h0 h,
   fun _ _ _ _ hr h0 h => appointCityAdmin_already_held hr h0 h⟩

/-- Witness for the amended C9: re-appointing country admin 2, state admin 3
and city admin 4 along the concrete chain fails with AlreadyHeld. -/
theorem reappointment_already_held_witness :
    appointCountryAdmin chain4 1 2 99 = .error .AlreadyHeld ∧
    appointStateAdmin chain4 2 3 99 = .error .AlreadyHeld ∧
    appointCityAdmin chain4 3 4 99 = .error .AlreadyHeld :=
  ⟨reappointment_already_held.1 chain4 1 2 99 (by decide) (by decide) (by decide),
   reappointment_already_held.2.1 chain4 2 3 99 (by decide) (by decide) (by decide),
   reappointment_already_held.2.2 chain4 3 4 99 (by decide) (by decide) (by decide)⟩

/-- C10: in every reachable state the ledger's next token id equals
totalSupply() + 1 (no entry point burns or removes Credits — retirement only
freezes ownership), hence the backend's prediction fromTokenId =
totalSupply + 1 (BlockchainService.mintWithCertification) coincides with
_nextTokenId, and the ids a successful mint actually assigns — as carried by
its CreditsIssued event — start exactly at the predicted id. -/
theorem next_token_id_tracks_supply :
    ∀ s : CState, Reachable s →
      s.nextTokenId = s.totalSupply + 1 ∧
      backendPredictedFromId s = s.nextTokenId ∧
      (∀ (recover : Address → Nat → Hash → Sig → Option Address)
        (sender toAddr : Address) (amount : Nat) (certHash : Hash) (sig : Sig)
        (ts : Nat) (s' : CState),
        mintWithCertification recover s sender toAddr amount certHash sig ts = .ok s' →
        s'.events.head? = some (Event.CreditsIssued toAddr amount
          (backendPredictedFromId s) (backendPredictedFromId s + amount - 1)
          certHash)) := by
  intro s hr
  obtain ⟨i1, i2, i3, i4, i5, i6, i7⟩ := reachable_inv hr
  refine ⟨i2, i2.symm, ?_⟩
  intro recover sender toAddr amount certHash sig ts s' hok
  obtain ⟨_, _, _, _, _, _, certifier, s2, _, _, _, hs'⟩ := mint_ok_elim hok
  subst hs'
  show some (Event.CreditsIssued toAddr amount s.nextTokenId
    (s.nextTokenId + amount - 1) certHash) = _
  unfold backendPredictedFromId
  rw [i2]

/-- Witness for C10 on the reachable pre-mint state chain4 and the concrete
mint producing chain5. -/
theorem next_token_id_tracks_supply_witness :
    chain4.nextTokenId = chain4.totalSupply + 1 ∧
    backendPredictedFromId chain4 = chain4.nextTokenId ∧
    chain5.events.head? = some (Event.CreditsIssued 5 2
      (backendPredictedFromId chain4) (backendPredictedFromId chain4 + 2 - 1) 7) :=
  ⟨(next_token_id_tracks_supply chain4 reachable_chain4).1,
   (next_token_id_tracks_supply chain4 reachable_chain4).2.1,
   (next_token_id_tracks_supply chain4 reachable_chain4).2.2 recOk 9 5 2 7 [] 0
     chain5 rfl⟩

end HydroCred
